import Mathlib

/-!
Verification development for the UE_BVHImporter repository.

The repository contains two independent BVH parsers and three
channel-to-transform composition sites:

* `FBVHParser` (Source/BVHImporter/Private/BVHParser.cpp) — the legacy
  line-based parser.  Modelled here by the `legacy*` definitions.
* `FInterchangeBVHParser` (Source/BVHImporter/Private/InterchangeBVHParser.cpp)
  — the token-stream parser.  Modelled here by the `ich*` definitions.
* `UBVHFactory::FactoryCreateFile` (BVHFactory.cpp), and
  `UInterchangeBVHTranslator::GetAnimationPayloadData`
  (InterchangeBVHTranslator.cpp) — channel-to-transform composition over
  `FBVHData`; `FInterchangeBVHParser::GetTransform` — composition over the
  token parser's state.

Machine doubles are modelled as exact rationals (`ℚ`) for parsed values and
as real numbers (`ℝ`) once trigonometry enters (quaternion construction).
Unreal container/string functions are modelled on Lean lists and
character-list re-implementations of the engine string operations
(`ParseIntoArray`, `TrimStartAndEnd`, `StartsWith`, `Contains`, `Replace`,
`Atod`, `Atoi`), so that every parser evaluates by kernel reduction on
concrete input.  A `TSharedPtr` is modelled as an `Option`:
dereferencing `none` is the `Crash.nullDeref` outcome, an out-of-bounds
`TArray`/raw-pointer access is the `Crash.oob` outcome.
-/

/-- Failure modes that are not explicit failure results: dereferencing a null
shared pointer, and indexing outside an array's bounds. -/
inductive Crash where
  | nullDeref
  | oob
deriving DecidableEq

/-- Whitespace characters recognized by `FString::TrimStartAndEnd`. -/
def chIsWS (c : Char) : Bool :=
  c = ' ' || c = '\t' || c = '\r' || c = '\n'

/-- Model of `FString::TrimStartAndEnd`.  (The engine `String` library
functions are re-implemented on character lists throughout this file so that
every definition evaluates by kernel reduction.) -/
def strTrim (s : String) : String :=
  ⟨((s.data.dropWhile chIsWS).reverse.dropWhile chIsWS).reverse⟩

/-- Split a character list at a separator, keeping empty groups. -/
def splitChar (sep : Char) : List Char → List (List Char)
  | [] => [[]]
  | c :: cs =>
    let r := splitChar sep cs
    if c = sep then [] :: r
    else
      match r with
      | [] => [[c]]
      | g :: gs => (c :: g) :: gs

/-- Split on single spaces, culling empty parts: models
`FString::ParseIntoArray(Parts, TEXT(" "), true)`. -/
def splitSp (s : String) : List String :=
  ((splitChar ' ' s.data).map (fun g => (⟨g⟩ : String))).filter
    (fun p => p ≠ "")

/-- Prefix test on character lists. -/
def chPref : List Char → List Char → Bool
  | [], _ => true
  | _ :: _, [] => false
  | p :: ps, c :: cs => p = c && chPref ps cs

/-- Model of `FString::StartsWith`. -/
def strStarts (s pat : String) : Bool := chPref pat.data s.data

/-- Substring occurrence on character lists. -/
def containsAt (pat : List Char) : List Char → Bool
  | [] => pat.isEmpty
  | c :: cs => chPref pat (c :: cs) || containsAt pat cs

/-- Model of `FString::Contains` (used only for the `HIERARCHY` scan; the
concrete inputs in this file use exact case, so the engine function's
default case-insensitivity is immaterial here). -/
def strContains (s pat : String) : Bool := containsAt pat.data s.data

/-- Replace left-to-right, non-overlapping occurrences of `pat` by `rep`.
`fuel` bounds the pass; every step consumes at least one character, so fuel
equal to the input length makes the fuel case unreachable. -/
def replChars (fuel : Nat) (pat rep : List Char) (l : List Char) :
    List Char :=
  match fuel, l with
  | 0, l => l
  | _ + 1, [] => []
  | fuel + 1, c :: cs =>
    if !pat.isEmpty && chPref pat (c :: cs) then
      rep ++ replChars fuel pat rep ((c :: cs).drop pat.length)
    else c :: replChars fuel pat rep cs

/-- Model of `FString::Replace`. -/
def strReplace (s pat rep : String) : String :=
  ⟨replChars s.data.length pat.data rep.data s.data⟩

/-- Accumulate decimal digits: helper for the `Atod`/`Atoi` models. -/
def digitsAcc : List Char → Nat → Nat × List Char
  | c :: cs, acc =>
      if c.isDigit then digitsAcc cs (acc * 10 + (c.toNat - '0'.toNat))
      else (acc, c :: cs)
  | [], acc => (acc, [])

/-- Model of `FCString::Atod` on whitespace-free decimal tokens: optional
sign, integer digits, optional fraction; trailing junk ignored; a
non-numeric token yields 0.  (Exponents are not modelled; no input in this
file uses them.)  The value `ip.frac` is built as a single `mkRat` so that
it evaluates by kernel reduction. -/
def atod (s : String) : ℚ :=
  let cs := (strTrim s).data
  let signed : Bool × List Char :=
    match cs with
    | '-' :: rest => (true, rest)
    | '+' :: rest => (false, rest)
    | _ => (false, cs)
  let ip := digitsAcc signed.2 0
  let q : ℚ :=
    match ip.2 with
    | '.' :: rest =>
        let ds := rest.takeWhile Char.isDigit
        mkRat ((ip.1 * 10 ^ ds.length + (digitsAcc ds 0).1 : Nat) : Int)
          (10 ^ ds.length)
    | _ => mkRat ((ip.1 : Nat) : Int) 1
  if signed.1 then -q else q

/-- Model of `FCString::Atoi`: optional sign then decimal digits; trailing
junk ignored; non-numeric yields 0. -/
def atoi (s : String) : Int :=
  let cs := (strTrim s).data
  let signed : Bool × List Char :=
    match cs with
    | '-' :: rest => (true, rest)
    | '+' :: rest => (false, rest)
    | _ => (false, cs)
  let n := (digitsAcc signed.2 0).1
  if signed.1 then -(n : Int) else (n : Int)

/-- Channel kinds of the legacy parser (`EBVHChannel` in BVHParser.h, in
declaration order). -/
inductive EBVHChannel where
  | Xposition
  | Yposition
  | Zposition
  | Zrotation
  | Xrotation
  | Yrotation
  | Unknown
deriving DecidableEq

/-- A joint tree node (`FBVHNode` in BVHParser.h).  The weak parent
back-pointer is not represented: the tree's child lists carry the same
information and no verified code path reads `Parent` except to build it. -/
inductive BVHNode where
  | mk (name : String) (offset : ℚ × ℚ × ℚ) (channels : List EBVHChannel)
       (channelStartIndex : Int) (children : List BVHNode)

def BVHNode.name : BVHNode → String
  | .mk n _ _ _ _ => n

def BVHNode.offset : BVHNode → ℚ × ℚ × ℚ
  | .mk _ o _ _ _ => o

def BVHNode.channels : BVHNode → List EBVHChannel
  | .mk _ _ c _ _ => c

def BVHNode.channelStartIndex : BVHNode → Int
  | .mk _ _ _ s _ => s

def BVHNode.children : BVHNode → List BVHNode
  | .mk _ _ _ _ cs => cs

/-- A freshly allocated `FBVHNode` (`MakeShared<FBVHNode>()`): empty name,
zero offset, no channels, `ChannelStartIndex = -1`, no children. -/
def BVHNode.fresh : BVHNode := .mk "" (0, 0, 0) [] (-1) []

def BVHNode.withName (n : BVHNode) (s : String) : BVHNode :=
  match n with
  | .mk _ o c i cs => .mk s o c i cs

def BVHNode.withOffset (n : BVHNode) (o : ℚ × ℚ × ℚ) : BVHNode :=
  match n with
  | .mk s _ c i cs => .mk s o c i cs

def BVHNode.addChannels (n : BVHNode) (more : List EBVHChannel) : BVHNode :=
  match n with
  | .mk s o c i cs => .mk s o (c ++ more) i cs

def BVHNode.addChild (n : BVHNode) (child : BVHNode) : BVHNode :=
  match n with
  | .mk s o c i cs => .mk s o c i (cs ++ [child])

/-- Whole-file parse result of the legacy parser (`FBVHData`).  `RootNode`
is a `TSharedPtr`, null by default. -/
structure LegacyData where
  rootNode : Option BVHNode := none
  numFrames : Int := 0
  frameTime : ℚ := 0
  motionData : List (List ℚ) := []

/-- Cursor state of the legacy parser: the loaded line array plus
`CurrentLineIndex`. -/
structure LState where
  lines : List String
  idx : Nat
deriving DecidableEq

/-- `FBVHParser::ReadLine`: yields the current line and advances, or fails
at end of input. -/
def readLine (st : LState) : Option (String × LState) :=
  if st.idx < st.lines.length then
    some (st.lines.getD st.idx "", ⟨st.lines, st.idx + 1⟩)
  else
    none

/-- `FBVHParser::GetNextToken`: first space-delimited token of the trimmed
line (the whole trimmed line when it has no space). -/
def getNextToken (line : String) : String :=
  ⟨(strTrim line).data.takeWhile (fun c => c ≠ ' ')⟩

/-- Channel keyword mapping of the legacy parser (the if/else chain in
`FBVHParser::ParseNode`, BVHParser.cpp lines 117-123): the six recognized
keywords, everything else `Unknown`. -/
def legacyChannelOfToken (c : String) : EBVHChannel :=
  if c = "Xposition" then .Xposition
  else if c = "Yposition" then .Yposition
  else if c = "Zposition" then .Zposition
  else if c = "Zrotation" then .Zrotation
  else if c = "Xrotation" then .Xrotation
  else if c = "Yrotation" then .Yrotation
  else .Unknown

/-- The `End Site` inner loop of `FBVHParser::ParseNode` (lines 147-163):
reads lines until `}` (or end of input), applying `OFFSET` lines to the end
node.  `fuel` bounds the iteration count; every iteration consumes a line,
so any fuel of at least the remaining line count makes the fuel case
unreachable. -/
def legacyEndSiteLoop (fuel : Nat) (endNode : BVHNode) (st : LState) :
    BVHNode × LState :=
  match fuel with
  | 0 => (endNode, st)
  | fuel + 1 =>
    match readLine st with
    | none => (endNode, st)
    | some (line, st') =>
      let t := strTrim line
      if t = "\x7d" then (endNode, st')
      else if strStarts t "OFFSET" then
        let parts := splitSp t
        let endNode' :=
          if 4 ≤ parts.length then
            endNode.withOffset
              (atod (parts.getD 1 ""), atod (parts.getD 2 ""),
               atod (parts.getD 3 ""))
          else endNode
        legacyEndSiteLoop fuel endNode' st'
      else legacyEndSiteLoop fuel endNode st'

/-- The recursive call of the `JOINT` branch of `FBVHParser::ParseNode`
(lines 126-137): `ParseNode(OutNode, ChildNode)` is invoked with the freshly
declared — hence null — local `TSharedPtr` `ChildNode` as the out
parameter.  `ParseNode` begins by reading `Lines[CurrentLineIndex - 1]` and
tokenizing it (both pure, results discarded here) and then assigns
`OutNode->Name`, dereferencing the null `ChildNode` before it can recurse
into the block, so the call is always the null-dereference crash (compare
`legacyParseNode` below, which models the same entry for a general out
pointer). -/
def legacyParseNodeNullChild (_st : LState) :
    Except Crash (Bool × BVHNode × LState) :=
  .error .nullDeref

/-- The joint-block line loop of `FBVHParser::ParseNode` (lines 91-166).
`fuel` bounds the iteration count; every iteration consumes at least one
line, so any fuel of at least the remaining line count makes the fuel case
unreachable (it then behaves like `ReadLine` failing). -/
def legacyParseNodeLoop (fuel : Nat) (node : BVHNode) (st : LState) :
    Except Crash (Bool × BVHNode × LState) :=
  match fuel with
  | 0 => .ok (true, node, st)
  | fuel + 1 =>
    match readLine st with
    | none => .ok (true, node, st)
    | some (line, st') =>
      let t := strTrim line
      if t = "\x7d" then .ok (true, node, st')
      else if strStarts t "OFFSET" then
        let parts := splitSp t
        let node' :=
          if 4 ≤ parts.length then
            node.withOffset
              (atod (parts.getD 1 ""), atod (parts.getD 2 ""),
               atod (parts.getD 3 ""))
          else node
        legacyParseNodeLoop fuel node' st'
      else if strStarts t "CHANNELS" then
        let parts := splitSp t
        let node' := node.addChannels ((parts.drop 2).map legacyChannelOfToken)
        legacyParseNodeLoop fuel node' st'
      else if strStarts t "JOINT" then
        match legacyParseNodeNullChild st' with
        | .error e => .error e
        | .ok (true, child, st'') =>
            legacyParseNodeLoop fuel (node.addChild child) st''
        | .ok (false, _, st'') => .ok (false, node, st'')
      else if strStarts t "End Site" then
        let endNode := BVHNode.fresh.withName (node.name ++ "_End")
        match readLine st' with
        | none => .ok (false, node, st')
        | some (line2, st'') =>
          if strTrim line2 ≠ "\x7b" then .ok (false, node, st'')
          else
            let r := legacyEndSiteLoop fuel endNode st''
            legacyParseNodeLoop fuel (node.addChild r.1) r.2
      else legacyParseNodeLoop fuel node st'

/-- `FBVHParser::ParseNode` (BVHParser.cpp lines 65-169).  The C++ receives
the out parameter `OutNode` as a `TSharedPtr<FBVHNode>&` and — after reading
back the already-consumed line — immediately assigns `OutNode->Name`; when
the pointer is null (which it is at both call sites: `ParseHierarchy`
passes the default-constructed `OutData.RootNode`, and the `JOINT` branch
passes a fresh local `ChildNode`, see `legacyParseNodeNullChild`), that
assignment dereferences a null shared pointer — modelled as
`Crash.nullDeref`.  The unused C++ parameter `ParentNode` is omitted.  On
success the (renamed, populated) node is returned in place of the out
parameter. -/
def legacyParseNode (fuel : Nat) (outNode : Option BVHNode) (st : LState) :
    Except Crash (Bool × BVHNode × LState) :=
  let currentLine := st.lines.getD (st.idx - 1) ""
  let tokens := splitSp currentLine
  match outNode with
  | none => .error .nullDeref
  | some node =>
    let node' :=
      if 2 ≤ tokens.length then node.withName (tokens.getD 1 "")
      else node.withName "Root"
    match readLine st with
    | none => .ok (false, node', st)
    | some (line, st') =>
      if strTrim line ≠ "\x7b" then .ok (false, node', st')
      else legacyParseNodeLoop fuel node' st'

/-- `FBVHParser::ParseHierarchy` (lines 51-63): expects a `ROOT` line then
parses the root node, passing the caller's still-null `OutRootNode` shared
pointer as the out parameter. -/
def legacyParseHierarchy (st : LState) :
    Except Crash (Bool × Option BVHNode × LState) :=
  match readLine st with
  | none => .ok (false, none, st)
  | some (line, st') =>
    if getNextToken line ≠ "ROOT" then .ok (false, none, st')
    else
      match legacyParseNode (st'.lines.length + 1) none st' with
      | .error e => .error e
      | .ok (b, node, st'') => .ok (b, some node, st'')

/-- The `MOTION` scan loop in `FBVHParser::Parse` (lines 33-41): advance to
just past the first line whose trim is `MOTION`, or to the end. -/
def findMotion : List String → Nat → Nat
  | [], idx => idx
  | l :: rest, idx =>
      if strTrim l = "MOTION" then idx + 1 else findMotion rest (idx + 1)

/-- The motion-data line loop of `FBVHParser::ParseMotion` (lines 192-206):
every remaining line is tab-normalized and split; each non-empty line
appends one frame row, regardless of the declared frame count. -/
def legacyMotionRows : List String → List (List ℚ)
  | [] => []
  | line :: rest =>
    let parts := splitSp (strReplace line "\t" " ")
    if parts.isEmpty then legacyMotionRows rest
    else parts.map atod :: legacyMotionRows rest

/-- `FBVHParser::ParseMotion` (lines 171-209): reads one line for
`Frames:` and one for `Frame Time:` — each applied only when the line has
the expected prefix, with no error otherwise — then consumes every
remaining line as motion data and returns success.  It returns failure only
when fewer than two lines remain. -/
def legacyParseMotion (st : LState) (d : LegacyData) :
    Bool × LegacyData × LState :=
  match readLine st with
  | none => (false, d, st)
  | some (line1, st1) =>
    let d1 :=
      if strStarts (strTrim line1) "Frames:" then
        { d with numFrames := atoi (strTrim (strReplace line1 "Frames:" "")) }
      else d
    match readLine st1 with
    | none => (false, d1, st1)
    | some (line2, st2) =>
      let d2 :=
        if strStarts (strTrim line2) "Frame Time:" then
          { d1 with frameTime := atod (strTrim (strReplace line2 "Frame Time:" "")) }
        else d1
      let rows := legacyMotionRows (st2.lines.drop st2.idx)
      (true, { d2 with motionData := d2.motionData ++ rows },
       ⟨st2.lines, st2.lines.length⟩)

/-- `FBVHParser::Parse` (lines 10-49) on an already-loaded line array:
requires a `HIERARCHY` first line, parses the hierarchy, scans for
`MOTION`, then parses the motion section. -/
def legacyParse (lines : List String) : Except Crash (Bool × LegacyData) :=
  let st : LState := ⟨lines, 0⟩
  let d : LegacyData := {}
  match readLine st with
  | none => .ok (false, d)
  | some (line, st1) =>
    if strTrim line ≠ "HIERARCHY" then .ok (false, d)
    else
      match legacyParseHierarchy st1 with
      | .error e => .error e
      | .ok (false, root, _) => .ok (false, { d with rootNode := root })
      | .ok (true, root, st2) =>
        let d1 := { d with rootNode := root }
        let idx' := findMotion (st2.lines.drop st2.idx) st2.idx
        if st2.lines.length ≤ idx' then .ok (false, d1)
        else
          let r := legacyParseMotion ⟨st2.lines, idx'⟩ d1
          .ok (r.1, r.2.1)

/-- Channel kinds of the token-stream parser (`EInterchangeBVHChannelEnum`
in InterchangeBVHParser.h).  There is no unknown arm: an unrecognized
keyword is a parse failure there. -/
inductive EIchChannel where
  | X_ROTATION
  | Y_ROTATION
  | Z_ROTATION
  | X_POSITION
  | Y_POSITION
  | Z_POSITION
deriving DecidableEq

/-- `FInterchangeBVHChannel`: owning joint (as an index into the joint
arena, modelling the C++ pointer), channel kind, and global channel
index. -/
structure IchChannel where
  jointIdx : Option Nat
  type : EIchChannel
  index : Nat
deriving DecidableEq

/-- `FInterchangeBVHJoint`: joints are kept in an arena (`Joints` array);
pointers between them are modelled as arena indices. -/
structure IchJoint where
  name : String
  index : Nat
  parent : Option Nat
  children : List Nat
  offset : ℚ × ℚ × ℚ
  bHasSite : Bool
  site : ℚ × ℚ × ℚ
  channels : List IchChannel
deriving DecidableEq

/-- Mutable parser state of `FInterchangeBVHParser::Parse`'s hierarchy
loop. -/
structure IchState where
  joints : List IchJoint
  channels : List IchChannel
  jointMap : List (String × Nat)
  jointStack : List (Option Nat)
  current : Option Nat
  bIsSite : Bool
deriving DecidableEq

def IchState.initial : IchState := ⟨[], [], [], [], none, false⟩

/-- The `GetNextToken` lambda of `FInterchangeBVHParser::Parse`: returns the
next token and the rest, or the empty string when the stream is
exhausted (without advancing). -/
def takeTok : List String → String × List String
  | [] => ("", [])
  | t :: rest => (t, rest)

/-- Point update in the joint arena (a store through a `FInterchangeBVHJoint*`). -/
def updateAt (i : Nat) (f : IchJoint → IchJoint) : List IchJoint → List IchJoint
  | [] => []
  | j :: rest =>
    match i with
    | 0 => f j :: rest
    | i + 1 => j :: updateAt i f rest

/-- Channel keyword mapping of the token-stream parser
(InterchangeBVHParser.cpp lines 169-188): the six recognized keywords;
anything else reaches the error arm, which aborts the whole parse. -/
def ichChannelTypeOf (s : String) : Option EIchChannel :=
  if s = "Xposition" then some .X_POSITION
  else if s = "Yposition" then some .Y_POSITION
  else if s = "Zposition" then some .Z_POSITION
  else if s = "Xrotation" then some .X_ROTATION
  else if s = "Yrotation" then some .Y_ROTATION
  else if s = "Zrotation" then some .Z_ROTATION
  else none

/-- The `CHANNELS` inner loop (lines 163-194): reads `n` keyword tokens,
appending a channel to the global list and to the current joint for each;
an unrecognized keyword makes the whole parse fail (`none`). -/
def ichChannelsLoop (n : Nat) (cur : Option Nat) (st : IchState)
    (toks : List String) : Option (IchState × List String) :=
  match n with
  | 0 => some (st, toks)
  | n + 1 =>
    let tk := takeTok toks
    match ichChannelTypeOf tk.1 with
    | none => none
    | some ty =>
      let ch : IchChannel := ⟨cur, ty, st.channels.length⟩
      let joints' :=
        match cur with
        | some i => updateAt i (fun p => { p with channels := p.channels ++ [ch] }) st.joints
        | none => st.joints
      ichChannelsLoop n cur { st with channels := st.channels ++ [ch], joints := joints' } tk.2

/-- The hierarchy while-loop of `FInterchangeBVHParser::Parse` (lines
112-198).  `fuel` bounds the iteration count; every iteration consumes at
least the head token, so any fuel of at least the token count makes the
fuel case unreachable (it then behaves like token exhaustion).  Returns
`none` when the parse fails (unknown channel keyword), otherwise the state
and the tokens following `MOTION` (or the empty rest at exhaustion). -/
def ichHierLoop (fuel : Nat) (toks : List String) (st : IchState) :
    Option (IchState × List String) :=
  match fuel with
  | 0 => some (st, toks)
  | fuel + 1 =>
    match toks with
    | [] => some (st, [])
    | tok :: rest =>
      if tok = "ROOT" ∨ tok = "JOINT" then
        let nm := takeTok rest
        let newIdx := st.joints.length
        let j : IchJoint :=
          { name := nm.1, index := newIdx, parent := st.current, children := [],
            offset := (0, 0, 0), bHasSite := false, site := (0, 0, 0), channels := [] }
        let joints1 := st.joints ++ [j]
        let joints2 :=
          match st.current with
          | some c => updateAt c (fun p => { p with children := p.children ++ [newIdx] }) joints1
          | none => joints1
        ichHierLoop fuel nm.2
          { st with joints := joints2, jointMap := st.jointMap ++ [(nm.1, newIdx)],
                    current := some newIdx, bIsSite := false }
      else if tok = "End" then
        ichHierLoop fuel (takeTok rest).2 { st with bIsSite := true }
      else if tok = "\x7b" then
        ichHierLoop fuel rest
          (if st.bIsSite then st else { st with jointStack := st.current :: st.jointStack })
      else if tok = "\x7d" then
        if st.bIsSite then ichHierLoop fuel rest { st with bIsSite := false }
        else
          match st.jointStack with
          | top :: stack' => ichHierLoop fuel rest { st with current := top, jointStack := stack' }
          | [] => ichHierLoop fuel rest st
      else if tok = "OFFSET" then
        let t1 := takeTok rest
        let t2 := takeTok t1.2
        let t3 := takeTok t2.2
        let v : ℚ × ℚ × ℚ := (atod t1.1, atod t2.1, atod t3.1)
        let st' :=
          match st.current with
          | some c =>
            if st.bIsSite then
              { st with joints := updateAt c (fun p => { p with bHasSite := true, site := v }) st.joints }
            else
              { st with joints := updateAt c (fun p => { p with offset := v }) st.joints }
          | none => st
        ichHierLoop fuel t3.2 st'
      else if tok = "CHANNELS" then
        let tn := takeTok rest
        match ichChannelsLoop (atoi tn.1).toNat st.current st tn.2 with
        | none => none
        | some (st', toks') => ichHierLoop fuel toks' st'
      else if tok = "MOTION" then some (st, rest)
      else ichHierLoop fuel rest st

/-- The motion-header while-loop (lines 201-210): scans tokens for
`Frames:` (recording the count) and for the pair `Frame` `Time:` (recording
the time and breaking).  With no such declarations the loop simply consumes
the stream, leaving both values at their defaults.  `fuel` as in
`ichHierLoop`. -/
def ichMotionHeader (fuel : Nat) (toks : List String) (numFrames : Int)
    (frameTime : ℚ) : Int × ℚ × List String :=
  match fuel with
  | 0 => (numFrames, frameTime, toks)
  | fuel + 1 =>
    match toks with
    | [] => (numFrames, frameTime, [])
    | tok :: rest =>
      if tok = "Frames:" then
        let tv := takeTok rest
        ichMotionHeader fuel tv.2 (atoi tv.1) frameTime
      else if tok = "Frame" ∧ (takeTok rest).1 = "Time:" then
        let rest1 := (takeTok rest).2
        let tv := takeTok rest1
        (numFrames, atod tv.1, tv.2)
      else ichMotionHeader fuel rest numFrames frameTime

/-- The motion-value loop (lines 215-219): reads up to `total` values,
stopping early when the token stream runs out. -/
def ichReadValues (total : Nat) (toks : List String) : List ℚ × List String :=
  match total with
  | 0 => ([], toks)
  | total + 1 =>
    match toks with
    | [] => ([], [])
    | t :: rest =>
      let r := ichReadValues total rest
      (atod t :: r.1, r.2)

/-- The scan for the `HIERARCHY` token (lines 83-89): index of the first
token containing it. -/
def findHierarchyIdx : List String → Option Nat
  | [] => none
  | t :: rest =>
    if strContains t "HIERARCHY" then some 0
    else (findHierarchyIdx rest).map (· + 1)

/-- Parse result of `FInterchangeBVHParser::Parse`: the fields of the
parser object that the parse populates. -/
structure IchResult where
  joints : List IchJoint
  channels : List IchChannel
  motionData : List ℚ
  numFrames : Int
  frameTime : ℚ
deriving DecidableEq

instance : Inhabited IchResult := ⟨⟨[], [], [], 0, 0⟩⟩

/-- `FInterchangeBVHParser::Parse` (lines 42-225) on the whitespace-
normalized token array: find `HIERARCHY`, run the hierarchy loop, the
motion-header loop, then read `NumFrames * Channels.Num()` values (fewer
when the stream runs out).  `none` models `return false`. -/
def ichParse (tokens : List String) : Option IchResult :=
  match findHierarchyIdx tokens with
  | none => none
  | some i =>
    let toks := tokens.drop (i + 1)
    match ichHierLoop (toks.length + 1) toks IchState.initial with
    | none => none
    | some (st, toksAfter) =>
      let hdr := ichMotionHeader (toksAfter.length + 1) toksAfter 0 0
      let total := (hdr.1 * (st.channels.length : Int)).toNat
      some ⟨st.joints, st.channels, (ichReadValues total hdr.2.2).1, hdr.1, hdr.2.1⟩

/-- The `NodeUidToJointMap` population loop of
`FInterchangeBVHParser::LoadBVHFile` (lines 313-323): walk the joints in
arena order, giving each the uid `SceneNode_<name>_<per-name counter>`. -/
def buildUids : List IchJoint → List (String × Nat) → List (String × Nat)
  | [], _ => []
  | j :: rest, counts =>
    let c := ((counts.lookup j.name).getD 0)
    ("SceneNode_" ++ j.name ++ "_" ++ toString c, j.index)
      :: buildUids rest ((j.name, c + 1) :: counts)

/-- The uid map as `LoadBVHFile` leaves it. -/
def ichUidMap (R : IchResult) : List (String × Nat) := buildUids R.joints []

/-- Quaternions as stored by `FQuat` (x, y, z, w), over idealized reals. -/
structure Quat where
  x : ℝ
  y : ℝ
  z : ℝ
  w : ℝ

/-- `FQuat::Identity`. -/
noncomputable def Quat.identity : Quat := ⟨0, 0, 0, 1⟩

/-- `FQuat::operator*`: the Hamilton product, in UE's component order. -/
noncomputable def Quat.mul (a b : Quat) : Quat :=
  ⟨a.w * b.x + a.x * b.w + a.y * b.z - a.z * b.y,
   a.w * b.y - a.x * b.z + a.y * b.w + a.z * b.x,
   a.w * b.z + a.x * b.y - a.y * b.x + a.z * b.w,
   a.w * b.w - a.x * b.x - a.y * b.y - a.z * b.z⟩

/-- `FMath::DegreesToRadians`. -/
noncomputable def degToRad (v : ℚ) : ℝ := (v : ℝ) * (Real.pi / 180)

/-- The `FQuat(FVector Axis, double AngleRad)` constructor: half-angle
sine times the axis, half-angle cosine as scalar part. -/
noncomputable def quatAxisAngle (axis : ℚ × ℚ × ℚ) (rad : ℝ) : Quat :=
  ⟨(axis.1 : ℝ) * Real.sin (rad / 2), (axis.2.1 : ℝ) * Real.sin (rad / 2),
   (axis.2.2 : ℝ) * Real.sin (rad / 2), Real.cos (rad / 2)⟩

/-- The per-channel rotation of the factory's second pass
(BVHFactory.cpp lines 557-564): `ChanRot` is the single-axis rotation for a
rotation channel and stays `FQuat::Identity` otherwise. -/
noncomputable def factoryChanRot (c : EBVHChannel) (v : ℚ) : Quat :=
  if c = .Xrotation then quatAxisAngle (1, 0, 0) (degToRad v)
  else if c = .Yrotation then quatAxisAngle (0, 1, 0) (degToRad v)
  else if c = .Zrotation then quatAxisAngle (0, 0, 1) (degToRad v)
  else Quat.identity

/-- `UE_SMALL_NUMBER` (1e-8), the default tolerance of
`FQuat::IsIdentity`. -/
noncomputable def smallNumber : ℝ := 1 / 100000000

/-- `FQuat::IsIdentity(Tolerance = UE_SMALL_NUMBER)`, i.e.
`Equals(FQuat::Identity, Tolerance)`: a toleranced componentwise comparison
that accepts both sign representatives of the rotation (`q` and `-q`). -/
def quatIsIdentity (q : Quat) : Prop :=
  (|q.x| ≤ smallNumber ∧ |q.y| ≤ smallNumber ∧ |q.z| ≤ smallNumber
      ∧ |q.w - 1| ≤ smallNumber)
  ∨ (|q.x| ≤ smallNumber ∧ |q.y| ≤ smallNumber ∧ |q.z| ≤ smallNumber
      ∧ |q.w + 1| ≤ smallNumber)

open Classical in
/-- One step of the factory's rotation composition (the loop body of
BVHFactory.cpp lines 554-568): multiply the accumulator on the right by the
per-channel rotation, skipping any `ChanRot` that passes the toleranced
`IsIdentity()` check — including near-identity rotations that are not the
exact identity. -/
noncomputable def factoryRotStep (acc : Quat) (cv : EBVHChannel × ℚ) : Quat :=
  let cr := factoryChanRot cv.1 cv.2
  if quatIsIdentity cr then acc else acc.mul cr

/-- The factory's rotation composition (BVHFactory.cpp lines 552-569): scan
the (channel, value) pairs in file order. -/
noncomputable def factoryComposeRot (cvs : List (EBVHChannel × ℚ)) : Quat :=
  cvs.foldl factoryRotStep Quat.identity

/-- One step of the translator payload's rotation composition
(InterchangeBVHTranslator.cpp lines 247-284). -/
noncomputable def translatorRotStep (acc : Quat) (cv : EBVHChannel × ℚ) :
    Quat :=
  match cv.1 with
  | .Xrotation => acc.mul (quatAxisAngle (1, 0, 0) (degToRad cv.2))
  | .Yrotation => acc.mul (quatAxisAngle (0, 1, 0) (degToRad cv.2))
  | .Zrotation => acc.mul (quatAxisAngle (0, 0, 1) (degToRad cv.2))
  | _ => acc

/-- The translator payload's rotation composition
(InterchangeBVHTranslator.cpp lines 247-284): multiply the accumulator on
the right for each rotation channel in file order; position and other
channels leave it unchanged. -/
noncomputable def translatorComposeRot (cvs : List (EBVHChannel × ℚ)) : Quat :=
  cvs.foldl translatorRotStep Quat.identity

/-- Modelled from the spec: "Rotation is composed as a second pass over the
same channel list in file order: for each rotation channel (X, Y, or Z),
build a single-axis rotation of degrees_to_radians(value) about that axis,
and right-multiply it onto a running rotation accumulator initialized to
identity"; "Channels of unknown kind contribute nothing". -/
noncomputable def specFileOrderRot (cvs : List (EBVHChannel × ℚ)) : Quat :=
  cvs.foldl
    (fun acc cv =>
      match cv.1 with
      | .Xrotation => acc.mul (quatAxisAngle (1, 0, 0) (degToRad cv.2))
      | .Yrotation => acc.mul (quatAxisAngle (0, 1, 0) (degToRad cv.2))
      | .Zrotation => acc.mul (quatAxisAngle (0, 0, 1) (degToRad cv.2))
      | _ => acc)
    Quat.identity

/-- One step of the Euler accumulation of
`FInterchangeBVHParser::GetTransform` (lines 240-263). -/
def ichEulerStep (e : ℚ × ℚ × ℚ) (cv : EIchChannel × ℚ) : ℚ × ℚ × ℚ :=
  match cv.1 with
  | .X_POSITION => e
  | .Y_POSITION => e
  | .Z_POSITION => e
  | .Z_ROTATION => (e.1, e.2.1, -cv.2)
  | .Y_ROTATION => (e.1, cv.2, e.2.2)
  | .X_ROTATION => (-cv.2, e.2.1, e.2.2)

/-- One step of the position-channel scan shared by the factory
(BVHFactory.cpp lines 522-550) and the translator payload
(InterchangeBVHTranslator.cpp lines 249-268): accumulate `ChanPos`
component-wise and raise `bHasPos` whenever a position channel appears;
rotation and other channels leave both unchanged. -/
def chanPosStep (pb : (ℚ × ℚ × ℚ) × Bool) (cv : EBVHChannel × ℚ) :
    (ℚ × ℚ × ℚ) × Bool :=
  match cv.1 with
  | .Xposition => ((cv.2, pb.1.2.1, pb.1.2.2), true)
  | .Yposition => ((pb.1.1, cv.2, pb.1.2.2), true)
  | .Zposition => ((pb.1.1, pb.1.2.1, cv.2), true)
  | _ => pb

/-- The whole position-channel scan: `ChanPos` starts at zero and
`bHasPos` at false. -/
def composeChanPos (cvs : List (EBVHChannel × ℚ)) : (ℚ × ℚ × ℚ) × Bool :=
  cvs.foldl chanPosStep ((0, 0, 0), false)

/-- The translation composition shared by the factory (lines 520, 571-573)
and the translator payload (lines 246, 286-288): `LocalPos` starts at the
static offset and is wholly replaced by `ChanPos` when any position channel
appeared. -/
def composeTranslation (offset : ℚ × ℚ × ℚ) (cvs : List (EBVHChannel × ℚ)) :
    ℚ × ℚ × ℚ :=
  let pb := composeChanPos cvs
  if pb.2 then pb.1 else offset

/-- `ConvertPos` (BVHFactory.cpp lines 39-41): UE_X = BVH_X,
UE_Y = -BVH_Z, UE_Z = BVH_Y. -/
def ConvertPos (v : ℚ × ℚ × ℚ) : ℚ × ℚ × ℚ := (v.1, -v.2.2, v.2.1)

/-- `ConvertRot` (BVHFactory.cpp lines 43-46): the same permutation and
sign flip on the quaternion's vector part, scalar part unchanged. -/
noncomputable def ConvertRot (q : Quat) : Quat := ⟨q.x, -q.z, q.y, q.w⟩

/-- The offset conversion of `UInterchangeBVHTranslator::Translate`
(InterchangeBVHTranslator.cpp lines 84-86). -/
def translatorOffsetToUE (v : ℚ × ℚ × ℚ) : ℚ × ℚ × ℚ := (v.1, -v.2.2, v.2.1)

/-- The position conversion of the translator payload (line 292). -/
def payloadPosToUE (v : ℚ × ℚ × ℚ) : ℚ × ℚ × ℚ := (v.1, -v.2.2, v.2.1)

/-- The rotation conversion of the translator payload (line 293). -/
noncomputable def payloadRotToUE (q : Quat) : Quat := ⟨q.x, -q.z, q.y, q.w⟩

/-- The offset conversion used by `FInterchangeBVHParser::GetTransform`
(InterchangeBVHParser.cpp line 239) and by the scene nodes of
`LoadBVHFile` (line 437): (X, -Y, Z). -/
def ichOffsetToLocal (v : ℚ × ℚ × ℚ) : ℚ × ℚ × ℚ := (v.1, -v.2.1, v.2.2)

/-- Modelled from the spec: "target.first = source.first; target.second =
-source.third; target.third = source.second". -/
def specConvertVec (v : ℚ × ℚ × ℚ) : ℚ × ℚ × ℚ := (v.1, -v.2.2, v.2.1)

/-- Modelled from the spec: "target_rotation = (source.x, -source.z,
source.y, source.w)". -/
noncomputable def specConvertQuat (q : Quat) : Quat := ⟨q.x, -q.z, q.y, q.w⟩

/-- The Euler accumulation of `FInterchangeBVHParser::GetTransform`
(lines 240-263): each rotation channel overwrites one component of the
Euler vector — X and Z with the negated value, Y with the value as is;
position channels leave it unchanged. -/
def ichEulerFold (cvs : List (EIchChannel × ℚ)) : ℚ × ℚ × ℚ :=
  cvs.foldl ichEulerStep (0, 0, 0)

/-- The local-offset accumulation of `GetTransform` (lines 239-263):
starts from the (X, -Y, Z)-converted static offset; each position channel
overwrites one component (Y with the negated value); rotation channels
leave it unchanged. -/
def ichOffsetFold (offset : ℚ × ℚ × ℚ) (cvs : List (EIchChannel × ℚ)) :
    ℚ × ℚ × ℚ :=
  cvs.foldl
    (fun p cv =>
      match cv.1 with
      | .X_POSITION => (cv.2, p.2.1, p.2.2)
      | .Y_POSITION => (p.1, -cv.2, p.2.2)
      | .Z_POSITION => (p.1, p.2.1, cv.2)
      | _ => p)
    (ichOffsetToLocal offset)


/-- The rotation construction of `GetTransform` (lines 266-273): fixed
order RotationZ * RotationY * RotationX from the accumulated Euler vector,
independent of the channel order. -/
noncomputable def ichRotOfEuler (e : ℚ × ℚ × ℚ) : Quat :=
  ((quatAxisAngle (0, 0, 1) (degToRad e.2.2)).mul
      (quatAxisAngle (0, 1, 0) (degToRad e.2.1))).mul
    (quatAxisAngle (1, 0, 0) (degToRad e.1))

/-- The full rotation that `GetTransform` produces from a joint's
(channel, value) list. -/
noncomputable def ichComposeRot (cvs : List (EIchChannel × ℚ)) : Quat :=
  ichRotOfEuler (ichEulerFold cvs)

/-- The (rotation, translation) pair of an `FTransform` as produced by
`GetTransform` (scale is always one). -/
structure RTransform where
  rotation : Quat
  translation : ℚ × ℚ × ℚ

/-- `FTransform::Identity`. -/
noncomputable def RTransform.identity : RTransform := ⟨Quat.identity, (0, 0, 0)⟩

/-- The per-channel reads `FrameData[Channel->Index]` of `GetTransform`
(line 243): `FrameData` is a raw pointer at flat offset `base`, so each
read at `base + Channel->Index` past the end of `MotionData` is
out-of-bounds (`none`). -/
def ichJointChannelValues (R : IchResult) (j : IchJoint) (base : Nat) :
    Option (List (EIchChannel × ℚ)) :=
  j.channels.mapM
    (fun ch => (R.motionData.get? (base + ch.index)).map (fun v => (ch.type, v)))

/-- `FInterchangeBVHParser::GetTransform` (lines 227-276), with the uid
lookup of `GetJointFromNodeUid` against the map built by `LoadBVHFile`:
identity for an unknown uid or a frame index outside `[0, NumFrames)`;
then `&MotionData[FrameIndex * Channels.Num()]` (a range-checked `TArray`
access) followed by raw reads per channel — both crash (`Crash.oob`) when
the motion data is shorter than the frame index implies. -/
noncomputable def ichGetTransform (R : IchResult) (frame : Int) (uid : String) :
    Except Crash RTransform :=
  match ((ichUidMap R).lookup uid).bind (fun i => R.joints.get? i) with
  | none => .ok RTransform.identity
  | some j =>
    if frame < 0 ∨ R.numFrames ≤ frame then .ok RTransform.identity
    else
      let base : Int := frame * (R.channels.length : Int)
      if base < 0 ∨ (R.motionData.length : Int) ≤ base then .error .oob
      else
        match ichJointChannelValues R j base.toNat with
        | none => .error .oob
        | some cvs =>
          .ok ⟨ichRotOfEuler (ichEulerFold cvs), ichOffsetFold j.offset cvs⟩

mutual

/-- `FNodeCollector::Collect` (BVHFactory.cpp lines 110-121): the
pre-order, file-order flattening of the joint tree. -/
def collectNodes : BVHNode → List BVHNode
  | .mk n o c s cs => .mk n o c s cs :: collectList cs

def collectList : List BVHNode → List BVHNode
  | [] => []
  | t :: ts => collectNodes t ++ collectList ts

end

/-- The factory's channel-start-index assignment (BVHFactory.cpp lines
492-497): walk the flattened node list, assigning the running channel
total. -/
def factoryAssignStarts (k : Int) : List BVHNode → List BVHNode
  | [] => []
  | n :: rest =>
    (match n with
     | .mk nm o c _ cs => BVHNode.mk nm o c k cs)
      :: factoryAssignStarts (k + n.channels.length) rest

mutual

/-- `FChannelVisitor::Visit` (InterchangeBVHTranslator.cpp lines 176-183):
assign the running channel index to the node, advance it by the node's
channel count, then visit the children in order. -/
def visitNode : BVHNode → Int → BVHNode × Int
  | .mk nm o c _ cs, idx =>
    let r := visitList cs (idx + c.length)
    (.mk nm o c idx r.1, r.2)

def visitList : List BVHNode → Int → List BVHNode × Int
  | [], idx => ([], idx)
  | t :: ts, idx =>
    let r := visitNode t idx
    let r2 := visitList ts r.2
    (r.1 :: r2.1, r2.2)

end

/-- Running partial sums: element `i` is `k` plus the sum of the first `i`
inputs. -/
def prefixSums (k : Int) : List Int → List Int
  | [] => []
  | a :: rest => k :: prefixSums (k + a) rest

/-- A node's channel count as an `Int` (the factory accumulates in an
`int32`). -/
def chanLen (n : BVHNode) : Int := n.channels.length

/-- A minimal well-formed BVH file, as the line array that
`LoadFileToStringArray` produces. -/
def bvhMinimalLines : List String :=
  ["HIERARCHY", "ROOT Hips", "\x7b", "OFFSET 0 0 0", "CHANNELS 0", "\x7d",
   "MOTION", "Frames: 1", "Frame Time: 0.1", "0"]

/-- Token stream of a file whose `CHANNELS` list contains the unrecognized
keyword `FOO`. -/
def unknownChannelTokens : List String :=
  ["HIERARCHY", "ROOT", "Hips", "\x7b", "OFFSET", "0", "0", "0",
   "CHANNELS", "1", "FOO", "\x7d", "MOTION", "Frames:", "1",
   "Frame", "Time:", "0.1", "0"]

/-- Token stream of a file whose root joint contains
`End Site \x7b OFFSET 0 5 0 \x7d`. -/
def endSiteTokens : List String :=
  ["HIERARCHY", "ROOT", "Hips", "\x7b", "OFFSET", "0", "0", "0",
   "CHANNELS", "0", "End", "Site", "\x7b", "OFFSET", "0", "5", "0", "\x7d",
   "\x7d", "MOTION", "Frames:", "1", "Frame", "Time:", "0.1"]

/-- Token stream declaring 2 frames of 3 channels (6 values) but carrying
only 3 values: a short motion section. -/
def shortMotionTokens : List String :=
  ["HIERARCHY", "ROOT", "Hips", "\x7b", "OFFSET", "0", "0", "0",
   "CHANNELS", "3", "Xposition", "Yposition", "Zposition", "\x7d",
   "MOTION", "Frames:", "2", "Frame", "Time:", "0.1", "1", "2", "3"]

/-- Token stream whose motion section carries no `Frames:` and no
`Frame Time:` declaration. -/
def noFramesTokens : List String :=
  ["HIERARCHY", "ROOT", "Hips", "\x7b", "OFFSET", "0", "0", "0",
   "CHANNELS", "0", "\x7d", "MOTION", "0.5", "7"]

/-- The position channels a legacy position-override example uses:
offset (1,2,3) fully overridden by Xposition/Yposition/Zposition. -/
def overrideExample : List (EBVHChannel × ℚ) :=
  [(.Xposition, 10), (.Yposition, 20), (.Zposition, 30)]

/-- Position-channel test of `EBVHChannel` (the three cases that raise
`bHasPos` in the factory and translator scans). -/
def isPosChannel (c : EBVHChannel) : Bool :=
  c = .Xposition || c = .Yposition || c = .Zposition

/-- A two-joint example tree (root with one rotation channel, one child
with two position channels), used to instantiate the channel-start-index
invariant. -/
def exampleTree : BVHNode :=
  .mk "A" (0, 0, 0) [.Xrotation] (-1)
    [.mk "B" (1, 0, 0) [.Xposition, .Yposition] (-1) []]

theorem readLine_of_lt (st : LState) (h : st.idx < st.lines.length) :
    readLine st = some (st.lines.getD st.idx "", ⟨st.lines, st.idx + 1⟩) := by
  simp [readLine, h]

/-- C1: contrary to the explicit-failure-result policy and to the claim
that every node pointer written during hierarchy parsing is non-null,
`FBVHParser` crashes on every input that reaches `ParseNode`:
`ParseHierarchy` passes the default-constructed (null) `OutData.RootNode`
shared pointer as the `OutNode` out-parameter and `ParseNode` assigns
`OutNode->Name` without ever allocating it, so even a minimal well-formed
file ends in a null dereference instead of a parse result. -/
theorem legacyParse_crashes_on_minimal_file :
    legacyParse bvhMinimalLines = .error .nullDeref := by rfl

/-- C10 counterexample: a motion section whose two header lines carry no
`Frames:`/`Frame Time:` declaration still parses with success — the
defaults 0 stay in place and the data lines are consumed — where the claim
requires motion parsing to return a failure result. -/
theorem legacyParseMotion_missingHeaders_cex :
    (legacyParseMotion ⟨["no frames header", "no time header", "1 2"], 0⟩ {}).1
        = true
    ∧ (legacyParseMotion
          ⟨["no frames header", "no time header", "1 2"], 0⟩ {}).2.1.numFrames
        = 0
    ∧ (legacyParseMotion
          ⟨["no frames header", "no time header", "1 2"], 0⟩ {}).2.1.frameTime
        = 0 :=
  ⟨rfl, rfl, rfl⟩

/-- C10 amended: missing or malformed `Frames:`/`Frame Time:` declarations
do not make motion parsing fail.  `FBVHParser::ParseMotion` succeeds
whenever at least two lines remain, and a first line that is not a
`Frames:` declaration simply leaves the frame count at its previous
(default) value; `FInterchangeBVHParser::Parse` likewise succeeds on a
motion section with no declarations at all, leaving frame count and frame
time at 0.  (The legacy `ParseMotion` returns failure only when the line
stream runs out before the two header reads.) -/
theorem legacyParseMotion_toleratesMissingHeaders :
    (∀ (l1 l2 : String) (rest : List String) (d : LegacyData),
        (legacyParseMotion ⟨l1 :: l2 :: rest, 0⟩ d).1 = true)
    ∧ (∀ (l1 l2 : String) (rest : List String) (d : LegacyData),
        strStarts (strTrim l1) "Frames:" = false →
          (legacyParseMotion ⟨l1 :: l2 :: rest, 0⟩ d).2.1.numFrames
            = d.numFrames)
    ∧ (ichParse noFramesTokens).isSome = true
    ∧ ((ichParse noFramesTokens).getD default).numFrames = 0
    ∧ ((ichParse noFramesTokens).getD default).frameTime = 0 := by
  refine ⟨?_, ?_, rfl, rfl, rfl⟩
  · intro l1 l2 rest d
    unfold legacyParseMotion
    rw [readLine_of_lt _ (by simp)]
    dsimp only [List.getD_cons_zero]
    rw [readLine_of_lt _ (by simp)]
  · intro l1 l2 rest d h
    unfold legacyParseMotion
    rw [readLine_of_lt _ (by simp)]
    dsimp only [List.getD_cons_zero]
    rw [readLine_of_lt _ (by simp)]
    simp [h]
    split <;> rfl

/-- C10 witness: the amended theorem applied to the concrete junk-header
motion section. -/
theorem legacyParseMotion_toleratesMissingHeaders_witness :
    (legacyParseMotion ⟨["junk", "also junk", "1 2"], 0⟩ {}).2.1.numFrames
      = (({} : LegacyData)).numFrames :=
  legacyParseMotion_toleratesMissingHeaders.2.1 "junk" "also junk" ["1 2"] {}
    (by rfl)

/-- C7 counterexample: `FBVHParser::ParseMotion` does not partition the
motion section into `frame_count` rows and does not stop at
`frame_count * total_channel_count` values: with `Frames: 1` declared (and
a 3-channel hierarchy implied) it still reads both remaining data lines,
producing 2 rows of 3 values (6 values, exceeding 1 * 3) and returning
success. -/
theorem legacyParseMotion_overread_cex :
    (legacyParseMotion
        ⟨["Frames: 1", "Frame Time: 0.1", "1 2 3", "4 5 6"], 0⟩ {}).1 = true
    ∧ (legacyParseMotion
        ⟨["Frames: 1", "Frame Time: 0.1", "1 2 3", "4 5 6"], 0⟩
          {}).2.1.numFrames = 1
    ∧ (legacyParseMotion
        ⟨["Frames: 1", "Frame Time: 0.1", "1 2 3", "4 5 6"], 0⟩
          {}).2.1.motionData = [[1, 2, 3], [4, 5, 6]] :=
  ⟨rfl, rfl, rfl⟩

/-- C7 amended: the token-stream parser (`FInterchangeBVHParser::Parse`)
reads at most `frame_count * total_channel_count` values, stops early when
the stream runs out, keeps the values already read and still succeeds; the
line-based `FBVHParser::ParseMotion`, by contrast, appends one row per
remaining non-empty line regardless of the declared frame count (its row
set depends only on the remaining lines, never on `NumFrames`). -/
theorem motionRead_bounds :
    (∀ (l1 l2 : String) (rest : List String) (d : LegacyData),
        (legacyParseMotion ⟨l1 :: l2 :: rest, 0⟩ d).2.1.motionData
          = d.motionData ++ legacyMotionRows rest)
    ∧ (∀ (total : Nat) (toks : List String),
        (ichReadValues total toks).1.length = min total toks.length)
    ∧ (ichParse shortMotionTokens).isSome = true
    ∧ ((ichParse shortMotionTokens).getD default).motionData = [1, 2, 3]
    ∧ ((ichParse shortMotionTokens).getD default).numFrames = 2 := by
  refine ⟨?_, ?_, rfl, rfl, rfl⟩
  · intro l1 l2 rest d
    unfold legacyParseMotion
    rw [readLine_of_lt _ (by simp)]
    dsimp only [List.getD_cons_zero]
    rw [readLine_of_lt _ (by simp)]
    dsimp only
    split <;> split <;> rfl
  · intro total
    induction total with
    | zero => intro toks; simp [ichReadValues]
    | succ n ih =>
      intro toks
      cases toks with
      | nil => simp [ichReadValues]
      | cons t rest => simp [ichReadValues, ih rest, Nat.succ_min_succ]

/-- C5 counterexample: a `CHANNELS` list containing the unrecognized
keyword `FOO` makes `FInterchangeBVHParser::Parse` fail (it deletes the
channel, clears all state and returns false), where the claim requires that
an unrecognized channel keyword is never a parse failure. -/
theorem ichParse_unknownChannel_fails_cex :
    ichParse unknownChannelTokens = none := by rfl

/-- C5 amended: the legacy parser (`FBVHParser`) maps every keyword outside
the six recognized ones to the explicit `Unknown` kind at its position in
the list and its node-block loop succeeds on such a `CHANNELS` line; the
token-stream parser (`FInterchangeBVHParser`), by contrast, treats an
unrecognized channel keyword as fatal: its `CHANNELS` loop returns failure
the moment it sees one. -/
theorem unknownChannel_kinds :
    (∀ c : String, c ≠ "Xposition" → c ≠ "Yposition" → c ≠ "Zposition" →
        c ≠ "Zrotation" → c ≠ "Xrotation" → c ≠ "Yrotation" →
        legacyChannelOfToken c = .Unknown)
    ∧ (∀ (parts : List String) (i : Nat),
        ((parts.drop 2).map legacyChannelOfToken)[i]?
          = (parts[2 + i]?).map legacyChannelOfToken)
    ∧ legacyParseNodeLoop 3 (BVHNode.mk "Hips" (0, 0, 0) [] (-1) [])
        ⟨["CHANNELS 3 Xposition FOO Zrotation", "\x7d"], 0⟩
      = .ok (true,
          BVHNode.mk "Hips" (0, 0, 0) [.Xposition, .Unknown, .Zrotation] (-1)
            [],
          ⟨["CHANNELS 3 Xposition FOO Zrotation", "\x7d"], 2⟩)
    ∧ (∀ (c : String) (n : Nat) (cur : Option Nat) (st : IchState)
          (toks : List String), ichChannelTypeOf c = none →
        ichChannelsLoop (n + 1) cur st (c :: toks) = none) := by
  refine ⟨?_, ?_, by rfl, ?_⟩
  · intro c h1 h2 h3 h4 h5 h6
    simp [legacyChannelOfToken, h1, h2, h3, h4, h5, h6]
  · intro parts i
    simp [List.getElem?_map, List.getElem?_drop]
  · intro c n cur st toks h
    simp [ichChannelsLoop, takeTok, h]

/-- C5 witness: the amended theorem applied to the keyword `FOO`. -/
theorem unknownChannel_kinds_witness :
    legacyChannelOfToken "FOO" = .Unknown
    ∧ ichChannelsLoop 1 none IchState.initial ["FOO"] = none :=
  ⟨unknownChannel_kinds.1 "FOO" (by decide) (by decide) (by decide)
      (by decide) (by decide) (by decide),
   unknownChannel_kinds.2.2.2 "FOO" 0 none IchState.initial [] (by rfl)⟩

/-- C6 counterexample: `FInterchangeBVHParser` parses
`End Site \x7b OFFSET 0 5 0 \x7d` inside `ROOT Hips` without creating any
child node: the parse succeeds with exactly one joint whose `Children` list
is empty — the end site is recorded as the `bHasSite`/`Site` fields of the
enclosing joint — where the claim requires a leaf child node. -/
theorem ichParse_endSite_noChild_cex :
    (ichParse endSiteTokens).isSome = true
    ∧ ((ichParse endSiteTokens).getD default).joints
      = [{ name := "Hips", index := 0, parent := none, children := [],
           offset := (0, 0, 0), bHasSite := true, site := (0, 5, 0),
           channels := [] }] :=
  ⟨rfl, by decide⟩

/-- C6 amended: the legacy parser's joint-block loop turns
`End Site \x7b OFFSET 0 5 0 \x7d` into a leaf child of the enclosing joint
named parent + `_End` with zero channels and offset (0,5,0) (and zero
channels means it contributes nothing to channel-slot indices); the
token-stream parser instead records the end site as the enclosing joint's
`bHasSite`/`Site` fields, creating no child node and likewise no channel
slots. -/
theorem endSite_leafNode :
    legacyParseNodeLoop 5 (BVHNode.mk "Hips" (0, 0, 0) [] (-1) [])
        ⟨["End Site", "\x7b", "OFFSET 0 5 0", "\x7d", "\x7d"], 0⟩
      = .ok (true,
          BVHNode.mk "Hips" (0, 0, 0) [] (-1)
            [BVHNode.mk "Hips_End" (0, 5, 0) [] (-1) []],
          ⟨["End Site", "\x7b", "OFFSET 0 5 0", "\x7d", "\x7d"], 5⟩)
    ∧ chanLen (BVHNode.mk "Hips_End" (0, 5, 0) [] (-1) []) = 0
    ∧ ((ichParse endSiteTokens).getD default).channels.length = 0
    ∧ ((ichParse endSiteTokens).getD default).joints.length = 1 :=
  ⟨rfl, rfl, rfl, rfl⟩

theorem chanPosStep_flag (cvs : List (EBVHChannel × ℚ)) :
    ∀ (p : ℚ × ℚ × ℚ) (b : Bool),
      (cvs.foldl chanPosStep (p, b)).2
        = (b || cvs.any fun cv => isPosChannel cv.1) := by
  induction cvs with
  | nil => intro p b; simp
  | cons cv rest ih =>
    intro p b
    obtain ⟨c, v⟩ := cv
    cases c <;> simp [chanPosStep, isPosChannel, ih]

/-- C3: in the factory's and the translator payload's shared composition,
whenever at least one positional channel appears in the (channel, value)
list the local translation is exactly the accumulated channel-position
vector, fully replacing the static offset; with no positional channel it
equals the static offset.  In particular offset (1,2,3) with channels
Xposition=10, Yposition=20, Zposition=30 yields exactly (10,20,30),
not (11,22,33). -/
theorem positionOverride (offset : ℚ × ℚ × ℚ) (cvs : List (EBVHChannel × ℚ)) :
    ((cvs.any fun cv => isPosChannel cv.1) = true →
        composeTranslation offset cvs = (composeChanPos cvs).1)
    ∧ ((cvs.any fun cv => isPosChannel cv.1) = false →
        composeTranslation offset cvs = offset)
    ∧ composeTranslation (1, 2, 3) overrideExample = (10, 20, 30)
    ∧ composeTranslation (1, 2, 3) overrideExample ≠ (11, 22, 33) := by
  have hflag : (composeChanPos cvs).2
      = (cvs.any fun cv => isPosChannel cv.1) := by
    simpa [composeChanPos] using chanPosStep_flag cvs (0, 0, 0) false
  refine ⟨?_, ?_, by decide, by decide⟩
  · intro h
    simp [composeTranslation, hflag, h]
  · intro h
    simp [composeTranslation, hflag, h]

/-- C3 witness: the theorem applied to the override example and to a
rotation-only channel list. -/
theorem positionOverride_witness :
    composeTranslation (1, 2, 3) overrideExample
        = (composeChanPos overrideExample).1
    ∧ composeTranslation (5, 6, 7) [(.Xrotation, 45)] = (5, 6, 7) :=
  ⟨(positionOverride (1, 2, 3) overrideExample).1 (by decide),
   (positionOverride (5, 6, 7) [(.Xrotation, 45)]).2.1 (by decide)⟩

theorem quatMulIdentity (q : Quat) : q.mul Quat.identity = q := by
  cases q
  simp [Quat.mul, Quat.identity]

theorem quatIsIdentity_identity : quatIsIdentity Quat.identity := by
  left
  simp [Quat.identity, smallNumber]

theorem factoryRotStep_eq (acc : Quat) (cv : EBVHChannel × ℚ)
    (h : quatIsIdentity (factoryChanRot cv.1 cv.2) →
        factoryChanRot cv.1 cv.2 = Quat.identity) :
    factoryRotStep acc cv = translatorRotStep acc cv := by
  obtain ⟨c, v⟩ := cv
  cases c <;>
    simp [factoryRotStep, translatorRotStep, factoryChanRot,
      quatIsIdentity_identity] at h ⊢ <;>
    (intro hid; rw [h hid, quatMulIdentity])

theorem factoryComposeRot_eq_spec (cvs : List (EBVHChannel × ℚ))
    (h : ∀ cv ∈ cvs, quatIsIdentity (factoryChanRot cv.1 cv.2) →
        factoryChanRot cv.1 cv.2 = Quat.identity) :
    factoryComposeRot cvs = specFileOrderRot cvs := by
  have hgen : ∀ (l : List (EBVHChannel × ℚ)),
      (∀ cv ∈ l, quatIsIdentity (factoryChanRot cv.1 cv.2) →
          factoryChanRot cv.1 cv.2 = Quat.identity) →
      ∀ acc, l.foldl factoryRotStep acc = l.foldl translatorRotStep acc := by
    intro l
    induction l with
    | nil => intro _ acc; rfl
    | cons cv rest ih =>
      intro hl acc
      simp only [List.foldl_cons]
      rw [factoryRotStep_eq acc cv (hl cv (by simp))]
      exact ih (fun cv' hcv' => hl cv' (by simp [hcv'])) _
  exact hgen cvs h Quat.identity

theorem specSwapRot_ne :
    specFileOrderRot [(.Xrotation, 90), (.Yrotation, 90)]
      ≠ specFileOrderRot [(.Yrotation, 90), (.Xrotation, 90)] := by
  have hrad : degToRad 90 / 2 = Real.pi / 4 := by
    unfold degToRad
    push_cast
    ring
  have hspos : 0 < Real.sin (degToRad 90 / 2) := by
    rw [hrad]
    apply Real.sin_pos_of_pos_of_lt_pi
    · positivity
    · linarith [Real.pi_pos]
  intro h
  have hz := congrArg Quat.z h
  simp [specFileOrderRot, Quat.mul, quatAxisAngle, Quat.identity] at hz
  nlinarith [hz, hspos]

theorem ichSwapRot_eq (v w : ℚ) :
    ichComposeRot [(.X_ROTATION, v), (.Y_ROTATION, w)]
      = ichComposeRot [(.Y_ROTATION, w), (.X_ROTATION, v)] := by
  unfold ichComposeRot
  congr 1

/-- C2 counterexample: in `FInterchangeBVHParser::GetTransform`, the
channel lists [Xrotation=90, Yrotation=90] and [Yrotation=90, Xrotation=90]
produce the SAME composed rotation (the Euler accumulation is
order-insensitive and the final composition is always Z*Y*X), while the
file-order product the claim prescribes distinguishes them — so
`GetTransform`'s composed rotation cannot equal the file-order product on
at least one of the two inputs. -/
theorem ichRotation_orderInsensitive_cex :
    ichComposeRot [(.X_ROTATION, 90), (.Y_ROTATION, 90)]
        = ichComposeRot [(.Y_ROTATION, 90), (.X_ROTATION, 90)]
    ∧ specFileOrderRot [(.Xrotation, 90), (.Yrotation, 90)]
        ≠ specFileOrderRot [(.Yrotation, 90), (.Xrotation, 90)] :=
  ⟨ichSwapRot_eq 90 90, specSwapRot_ne⟩

/-- C2 amended: the translator payload's composition equals the spec's
file-order product of single-axis `degrees_to_radians` rotations (with
non-rotation channels contributing nothing) unconditionally, and that
product distinguishes [Xrotation=90, Yrotation=90] from [Yrotation=90,
Xrotation=90]; the factory's composition equals the same product only when
no channel's per-channel rotation lies within `FQuat::IsIdentity`'s 1e-8
tolerance ball (either sign representative) without being the exact
identity — the factory skips such near-identity rotations, deviating from
the file-order product; and `FInterchangeBVHParser::GetTransform` composes
a fixed Z*Y*X rotation from sign-flipped accumulated Euler angles, so
there the two swapped channel orders always yield identical rotations. -/
theorem rotationComposition_fileOrder :
    (∀ cvs : List (EBVHChannel × ℚ),
        (∀ cv ∈ cvs, quatIsIdentity (factoryChanRot cv.1 cv.2) →
            factoryChanRot cv.1 cv.2 = Quat.identity) →
        factoryComposeRot cvs = specFileOrderRot cvs)
    ∧ (∀ (acc : Quat) (cv : EBVHChannel × ℚ),
        quatIsIdentity (factoryChanRot cv.1 cv.2) →
        factoryRotStep acc cv = acc)
    ∧ (∀ cvs : List (EBVHChannel × ℚ),
        translatorComposeRot cvs = specFileOrderRot cvs)
    ∧ specFileOrderRot [(.Xrotation, 90), (.Yrotation, 90)]
        ≠ specFileOrderRot [(.Yrotation, 90), (.Xrotation, 90)]
    ∧ (∀ v w : ℚ, ichComposeRot [(.X_ROTATION, v), (.Y_ROTATION, w)]
        = ichComposeRot [(.Y_ROTATION, w), (.X_ROTATION, v)]) :=
  ⟨factoryComposeRot_eq_spec,
   fun acc cv h => by unfold factoryRotStep; rw [if_pos h],
   fun _ => rfl, specSwapRot_ne, ichSwapRot_eq⟩

/-- C2 witness: the amended theorem applied to a channel list whose
per-channel rotations are all the exact identity (position and unknown
channels), discharging the no-tolerated-skip hypothesis. -/
theorem rotationComposition_fileOrder_witness :
    factoryComposeRot [(.Xposition, 5), (.Unknown, 3)]
      = specFileOrderRot [(.Xposition, 5), (.Unknown, 3)] :=
  rotationComposition_fileOrder.1 [(.Xposition, 5), (.Unknown, 3)]
    (by
      intro cv hcv hid
      simp only [List.mem_cons, List.not_mem_nil, or_false] at hcv
      rcases hcv with rfl | rfl <;> rfl)

/-- C4 counterexample: the conversion is NOT applied consistently to every
emitted translation — `FInterchangeBVHParser::GetTransform` (and the scene
nodes of `LoadBVHFile`) convert the static joint offset as (x, -y, z), not
as the claimed (x, -z, y): at offset (1,2,3) the two mappings disagree. -/
theorem ichOffsetConversion_cex :
    ichOffsetToLocal (1, 2, 3) ≠ specConvertVec (1, 2, 3) := by decide

/-- C4 amended: the factory's `ConvertPos`/`ConvertRot`, the translator's
scene-node offset conversion and the translator payload's
position/rotation conversions all realize the claimed mapping
(x, -z, y) / (x, -z, y, w); but `FInterchangeBVHParser` (its `GetTransform`
and the `LoadBVHFile` scene nodes) instead maps translations as (x, -y, z)
— at (1,2,3) it produces (1,-2,3) where the claimed mapping gives
(1,-3,2) — and bakes its rotation handedness into negated X/Z Euler angles
rather than converting a composed quaternion. -/
theorem coordConversion_consistency :
    (∀ v : ℚ × ℚ × ℚ, ConvertPos v = specConvertVec v)
    ∧ (∀ v : ℚ × ℚ × ℚ, translatorOffsetToUE v = specConvertVec v)
    ∧ (∀ v : ℚ × ℚ × ℚ, payloadPosToUE v = specConvertVec v)
    ∧ (∀ q : Quat, ConvertRot q = specConvertQuat q)
    ∧ (∀ q : Quat, payloadRotToUE q = specConvertQuat q)
    ∧ ichOffsetToLocal (1, 2, 3) = (1, -2, 3)
    ∧ specConvertVec (1, 2, 3) = (1, -3, 2) :=
  ⟨fun _ => rfl, fun _ => rfl, fun _ => rfl, fun _ => rfl, fun _ => rfl,
   by decide, by decide⟩

theorem prefixSums_append (l1 l2 : List Int) :
    ∀ k, prefixSums k (l1 ++ l2)
      = prefixSums k l1 ++ prefixSums (k + l1.sum) l2 := by
  induction l1 with
  | nil => intro k; simp [prefixSums]
  | cons a rest ih =>
    intro k
    simp [prefixSums, ih (k + a), add_assoc]

mutual

theorem visitNode_spec : ∀ (t : BVHNode) (k : Int),
    (collectNodes (visitNode t k).1).map BVHNode.channelStartIndex
        = prefixSums k ((collectNodes t).map chanLen)
    ∧ (visitNode t k).2 = k + ((collectNodes t).map chanLen).sum
  | .mk nm o c s cs, k => by
    have h := visitList_spec cs (k + (c.length : Int))
    constructor
    · simp [visitNode, collectNodes, prefixSums, chanLen, BVHNode.channels,
        BVHNode.channelStartIndex, h.1]
    · simp [visitNode, collectNodes, chanLen, BVHNode.channels, h.2]
      ring

theorem visitList_spec : ∀ (ts : List BVHNode) (k : Int),
    (collectList (visitList ts k).1).map BVHNode.channelStartIndex
        = prefixSums k ((collectList ts).map chanLen)
    ∧ (visitList ts k).2 = k + ((collectList ts).map chanLen).sum
  | [], k => by simp [visitList, collectList, prefixSums]
  | t :: ts, k => by
    have h1 := visitNode_spec t k
    have h2 := visitList_spec ts (visitNode t k).2
    rw [h1.2] at h2
    constructor
    · simp [visitList, collectList, List.map_append, prefixSums_append,
        h1.1, h1.2, h2.1]
    · simp [visitList, collectList, h1.2, h2.2]
      ring

end

theorem factoryAssignStarts_map : ∀ (ns : List BVHNode) (k : Int),
    (factoryAssignStarts k ns).map BVHNode.channelStartIndex
      = prefixSums k (ns.map chanLen)
  | [], k => by simp [factoryAssignStarts, prefixSums]
  | n :: rest, k => by
    obtain ⟨nm, o, c, s, cs⟩ := n
    simp [factoryAssignStarts, prefixSums, chanLen, BVHNode.channels,
      BVHNode.channelStartIndex, factoryAssignStarts_map rest]

mutual

theorem visitNode_again : ∀ (t : BVHNode) (k k' : Int),
    visitNode (visitNode t k).1 k' = visitNode t k'
  | .mk nm o c s cs, k, k' => by
    simp [visitNode, visitList_again cs (k + (c.length : Int))]

theorem visitList_again : ∀ (ts : List BVHNode) (k k' : Int),
    visitList (visitList ts k).1 k' = visitList ts k'
  | [], _, _ => rfl
  | t :: ts, k, k' => by
    simp [visitList, visitNode_again t k k',
      visitList_again ts (visitNode t k).2]

end

theorem prefixSums_getElem? : ∀ (l : List Int) (k : Int) (i : Nat),
    i < l.length → (prefixSums k l)[i]? = some (k + (l.take i).sum)
  | a :: rest, k, 0, _ => by simp [prefixSums]
  | a :: rest, k, i + 1, h => by
    simp [prefixSums, prefixSums_getElem? rest (k + a) i (by simpa using h),
      add_assoc]
  | [], _, i, h => by simp at h

/-- C8: after the channel-index computation runs (either the factory's
flat-list walk or the translator's recursive `FChannelVisitor`), every
joint's `channel_start_index` equals the sum of the channel counts of the
joints before it in the pre-order depth-first traversal; the factory walk
over the pre-order flattening assigns exactly the same indices as the
recursive visitor; and re-running the visitor on an already-visited tree
reproduces the identical result (transform lookups are pure and cannot
perturb this). -/
theorem channelStartIndex_invariant (t : BVHNode) (i : Nat)
    (h : i < (collectNodes t).length) :
    ((collectNodes (visitNode t 0).1).map BVHNode.channelStartIndex)[i]?
        = some ((((collectNodes t).map chanLen).take i).sum)
    ∧ (factoryAssignStarts 0 (collectNodes t)).map BVHNode.channelStartIndex
        = (collectNodes (visitNode t 0).1).map BVHNode.channelStartIndex
    ∧ visitNode (visitNode t 0).1 0 = visitNode t 0 := by
  have h1 := (visitNode_spec t 0).1
  refine ⟨?_, ?_, visitNode_again t 0 0⟩
  · rw [h1, prefixSums_getElem? _ 0 i (by simpa using h)]
    simp
  · rw [factoryAssignStarts_map, h1]

/-- C8 witness: the invariant applied at position 1 of the two-joint
example tree (the child starts right after the root's single channel). -/
theorem channelStartIndex_invariant_witness :
    1 < (collectNodes exampleTree).length
    ∧ (((collectNodes (visitNode exampleTree 0).1).map
          BVHNode.channelStartIndex)[1]?
        = some ((((collectNodes exampleTree).map chanLen).take 1).sum)
      ∧ (factoryAssignStarts 0 (collectNodes exampleTree)).map
            BVHNode.channelStartIndex
          = (collectNodes (visitNode exampleTree 0).1).map
              BVHNode.channelStartIndex
      ∧ visitNode (visitNode exampleTree 0).1 0 = visitNode exampleTree 0) :=
  ⟨by decide, channelStartIndex_invariant exampleTree 1 (by decide)⟩

/-- C9 counterexample: on a parse result from a short motion section
(2 frames of 3 channels declared, only 3 values present), a transform
lookup at the in-range frame index 1 does not return identity or a
sentinel: `&MotionData[FrameIndex * Channels.Num()]` indexes position 3 of
a 3-element array — undefined behavior (modelled as the out-of-bounds
crash). -/
theorem ichGetTransform_shortMotion_cex :
    ichGetTransform ((ichParse shortMotionTokens).getD default) 1
        "SceneNode_Hips_0"
      = .error .oob := by rfl

/-- C9 amended: `GetTransform` returns the identity transform for an
unknown joint uid and for any frame index outside [0, NumFrames); but it
does not guard the motion data itself, so for a parse result whose motion
section is short, an in-range frame index leads to out-of-bounds indexing
(undefined behavior) instead of an identity or sentinel. -/
theorem getTransform_bounds (R : IchResult) (uid : String) (frame : Int) :
    (((ichUidMap R).lookup uid).bind (fun i => R.joints.get? i) = none →
        ichGetTransform R frame uid = .ok RTransform.identity)
    ∧ (frame < 0 ∨ R.numFrames ≤ frame →
        ichGetTransform R frame uid = .ok RTransform.identity) := by
  constructor
  · intro h
    unfold ichGetTransform
    rw [h]
  · intro h
    unfold ichGetTransform
    cases hm : ((ichUidMap R).lookup uid).bind (fun i => R.joints.get? i) with
    | none => rfl
    | some j => simp [h]

/-- C9 witness: the amended theorem applied to the short-motion parse
result, at the out-of-range frame 5 and at an unknown uid. -/
theorem getTransform_bounds_witness :
    ichGetTransform ((ichParse shortMotionTokens).getD default) 5
        "SceneNode_Hips_0" = .ok RTransform.identity
    ∧ ichGetTransform ((ichParse shortMotionTokens).getD default) 0 "nope"
      = .ok RTransform.identity :=
  ⟨(getTransform_bounds ((ichParse shortMotionTokens).getD default)
      "SceneNode_Hips_0" 5).2 (by right; decide),
   (getTransform_bounds ((ichParse shortMotionTokens).getD default)
      "nope" 0).1 (by decide)⟩
